import Mathlib

/-!
Shallow embedding of `src/lib.rs` of the gitpure repository: a thin host
binding exposing `clone_from` and `branches` over an underlying git library.
Branch names are byte strings (`List Nat`, each entry a byte value); the final
display names are the UTF-8 bytes of the produced host strings, ordered by the
lexicographic order on byte lists, which is exactly the host language's
ordering on strings and byte slices.
-/

deriving instance DecidableEq for Except

namespace Gitpure

/-- Raw byte string (each entry one byte value). -/
abbrev Bytes := List Nat

/-- A byte is a UTF-8 continuation byte (`0x80..=0xBF`). -/
def isCont (b : Nat) : Bool := decide (0x80 ≤ b ∧ b ≤ 0xBF)

/-- Modelled from the spec: length of the well-formed UTF-8 sequence starting at
the head of the byte list, or `0` when the head does not start a well-formed
sequence.  This is the validity test behind the library's `to_str` (strict
UTF-8 decoding): overlong encodings, surrogates and values above `U+10FFFF`
are rejected. -/
def seqLen : Bytes → Nat
  | [] => 0
  | b0 :: rest =>
    if b0 < 0x80 then 1
    else if 0xC2 ≤ b0 ∧ b0 ≤ 0xDF then
      match rest with
      | b1 :: _ => if isCont b1 then 2 else 0
      | [] => 0
    else if b0 = 0xE0 then
      match rest with
      | b1 :: b2 :: _ => if (0xA0 ≤ b1 ∧ b1 ≤ 0xBF) ∧ isCont b2 then 3 else 0
      | _ => 0
    else if 0xE1 ≤ b0 ∧ b0 ≤ 0xEC then
      match rest with
      | b1 :: b2 :: _ => if isCont b1 ∧ isCont b2 then 3 else 0
      | _ => 0
    else if b0 = 0xED then
      match rest with
      | b1 :: b2 :: _ => if (0x80 ≤ b1 ∧ b1 ≤ 0x9F) ∧ isCont b2 then 3 else 0
      | _ => 0
    else if 0xEE ≤ b0 ∧ b0 ≤ 0xEF then
      match rest with
      | b1 :: b2 :: _ => if isCont b1 ∧ isCont b2 then 3 else 0
      | _ => 0
    else if b0 = 0xF0 then
      match rest with
      | b1 :: b2 :: b3 :: _ =>
        if (0x90 ≤ b1 ∧ b1 ≤ 0xBF) ∧ isCont b2 ∧ isCont b3 then 4 else 0
      | _ => 0
    else if 0xF1 ≤ b0 ∧ b0 ≤ 0xF3 then
      match rest with
      | b1 :: b2 :: b3 :: _ => if isCont b1 ∧ isCont b2 ∧ isCont b3 then 4 else 0
      | _ => 0
    else if b0 = 0xF4 then
      match rest with
      | b1 :: b2 :: b3 :: _ =>
        if (0x80 ≤ b1 ∧ b1 ≤ 0x8F) ∧ isCont b2 ∧ isCont b3 then 4 else 0
      | _ => 0
    else 0

/-- Fuel-driven UTF-8 validity scan; the fuel is instantiated with the list
length, which suffices because every accepted sequence consumes at least one
byte. -/
def validUtf8Fuel : Nat → Bytes → Bool
  | _, [] => true
  | 0, _ :: _ => false
  | fuel + 1, l => if seqLen l = 0 then false else validUtf8Fuel fuel (l.drop (seqLen l))

/-- The byte list is well-formed UTF-8 (the `Ok` branch of `to_str`). -/
def isValidUtf8 (l : Bytes) : Bool := validUtf8Fuel l.length l

/-- UTF-8 encoding of the replacement character `U+FFFD`. -/
def fffd : Bytes := [0xEF, 0xBF, 0xBD]

/-- Count how many leading bytes satisfy, in order, the given byte tests,
stopping at the first failure. -/
def okCount : Bytes → List (Nat → Bool) → Nat
  | b :: bs, p :: ps => if p b then 1 + okCount bs ps else 0
  | _, _ => 0

/-- Modelled from the spec: how many bytes one replacement character stands for
when decoding ill-formed input (the maximal subpart of an ill-formed sequence);
always at least `1`. -/
def subpartLen : Bytes → Nat
  | [] => 1
  | b0 :: rest =>
    if b0 = 0xE0 then 1 + okCount rest [fun b1 => decide (0xA0 ≤ b1 ∧ b1 ≤ 0xBF), isCont]
    else if b0 = 0xED then 1 + okCount rest [fun b1 => decide (0x80 ≤ b1 ∧ b1 ≤ 0x9F), isCont]
    else if 0xE1 ≤ b0 ∧ b0 ≤ 0xEF then 1 + okCount rest [isCont, isCont]
    else if b0 = 0xF0 then
      1 + okCount rest [fun b1 => decide (0x90 ≤ b1 ∧ b1 ≤ 0xBF), isCont, isCont]
    else if 0xF1 ≤ b0 ∧ b0 ≤ 0xF3 then 1 + okCount rest [isCont, isCont, isCont]
    else if b0 = 0xF4 then
      1 + okCount rest [fun b1 => decide (0x80 ≤ b1 ∧ b1 ≤ 0x8F), isCont, isCont]
    else 1

/-- Fuel-driven lossy UTF-8 decode, producing the UTF-8 bytes of the resulting
text: well-formed sequences are copied through, each maximal ill-formed subpart
becomes one replacement character. -/
def lossyFuel : Nat → Bytes → Bytes
  | _, [] => []
  | 0, _ :: _ => []
  | fuel + 1, l =>
    if seqLen l = 0 then fffd ++ lossyFuel fuel (l.drop (subpartLen l))
    else l.take (seqLen l) ++ lossyFuel fuel (l.drop (seqLen l))

/-- Modelled from the spec: the lossy textual representation of arbitrary bytes
(the library's `to_string` on a byte string), as its UTF-8 bytes. -/
def utf8Lossy (l : Bytes) : Bytes := lossyFuel l.length l

/-- The bytes of `"refs/heads/"`, the local-branch namespace. -/
def refsHeads : Bytes := [114, 101, 102, 115, 47, 104, 101, 97, 100, 115, 47]

/-- Modelled from the spec: `name().shorten()` strips the local-branch
namespace from a fully qualified reference name. -/
def shorten (name : Bytes) : Bytes :=
  if refsHeads.isPrefixOf name then name.drop refsHeads.length else name

/-- Lines 86-92 of `lib.rs`: the display name of one branch reference — shorten,
then either the valid UTF-8 text itself (`Ok(valid) => valid.to_owned()`) or
its lossy decoding (`Err(_) => short_name.to_string()`). -/
def displayName (name : Bytes) : Bytes :=
  let short := shorten name
  if isValidUtf8 short then short else utf8Lossy short

/-- Host-level exception values the binding layer could raise; `lib.rs` only
ever constructs `PyRuntimeError::new_err(format!(..))`, i.e. `runtimeError`. -/
inductive PyErr
  | runtimeError (msg : String)
  | valueError (msg : String)
  | typeError (msg : String)
deriving DecidableEq, Repr

/-- Errors of the underlying git library, by kind (spec section 7). -/
inductive GixErr
  | transport (msg : String)
  | protocol (msg : String)
  | corruptObject (msg : String)
  | checkout (msg : String)
  | reference (msg : String)
  | cancelled
  | other (msg : String)
deriving DecidableEq, Repr

/-- Rendering of a git-library error, as interpolated by `format!("...: {}", e)`. -/
def gixMsg : GixErr → String
  | .transport m => m
  | .protocol m => m
  | .corruptObject m => m
  | .checkout m => m
  | .reference m => m
  | .cancelled => "interrupted"
  | .other m => m

/-- The reference-store view `branches()` reads: the outcome of
`references()`, of `local_branches()`, and the per-reference load results
(each a fully qualified local-branch name, or a load error), in the store's
enumeration order. -/
structure RefStore where
  refsResult : Except String Unit
  iterResult : Except String Unit
  items : List (Except String Bytes)
deriving DecidableEq, Repr

/-- `collect::<Result<Vec<_>, _>>()`: first error wins, else the list of
successes in order. -/
def collectResults {α : Type} : List (Except String α) → Except String (List α)
  | [] => .ok []
  | .error e :: _ => .error e
  | .ok a :: rest =>
    match collectResults rest with
    | .error e => .error e
    | .ok as => .ok (a :: as)

/-- Lines 69-99 of `lib.rs`: `branches()`.  Access the reference platform,
list local branches, load every reference (any failure aborts with a wrapped
error), map each to its display name, sort, and remove adjacent duplicates. -/
def branches (st : RefStore) : Except PyErr (List Bytes) :=
  match st.refsResult with
  | .error err => .error (.runtimeError ("Failed to access references: " ++ err))
  | .ok _ =>
    match st.iterResult with
    | .error err => .error (.runtimeError ("Failed to list local branches: " ++ err))
    | .ok _ =>
      match collectResults st.items with
      | .error err => .error (.runtimeError ("Failed to load branch reference: " ++ err))
      | .ok refs =>
        .ok ((List.insertionSort (· ≤ ·) (refs.map displayName)).destutter (· ≠ ·))

/-- `gix::create::Kind`, selected from the `bare` flag. -/
inductive CreateKind
  | bare
  | withWorktree
deriving DecidableEq, Repr

/-- The fetched-but-not-yet-checked-out repository returned by
`fetch_then_checkout`: metadata directory, the worktree location a checkout
would use, and the reference store populated from the discovered refs. -/
structure PrepareCheckout where
  gitDir : String
  worktreePath : String
  store : RefStore
deriving DecidableEq, Repr

/-- The repository handle wrapped by the binding. -/
structure Repo where
  gitDir : String
  worktreeDir : Option String
  store : RefStore
deriving DecidableEq, Repr

/-- Oracle for the git library's externally determined outcomes during one
clone call: preparation, fetch (discovery/negotiation/transfer) and the
filesystem side of checkout. -/
structure GixEnv where
  prepareResult : Except GixErr Unit
  fetchResult : Except GixErr PrepareCheckout
  checkoutResult : Except GixErr Unit
deriving DecidableEq, Repr

/-- Modelled from the spec: `gix::clone::PrepareFetch::new` validates the URL
and destination for the requested repository kind. -/
def prepareFetch (env : GixEnv) (url toPath : String) (kind : CreateKind) :
    Except GixErr Unit :=
  match url, toPath, kind with
  | _, _, _ => env.prepareResult

/-- Modelled from the spec: `fetch_then_checkout` runs discovery, negotiation
and transfer, polling the process-wide interrupt flag at each negotiation
round and transfer chunk; when the flag is observed set it aborts with a
cancellation error, otherwise the outcome is the oracle's fetch result. -/
def fetch_then_checkout (env : GixEnv) (interrupted : Bool) :
    Except GixErr PrepareCheckout :=
  if interrupted then .error .cancelled else env.fetchResult

/-- Modelled from the spec: `persist` keeps the fetched repository as is — no
worktree, reference store unchanged. -/
def persist (pc : PrepareCheckout) : Repo :=
  { gitDir := pc.gitDir, worktreeDir := none, store := pc.store }

/-- Modelled from the spec: `main_worktree` invokes the Checkout Engine,
polling the interrupt flag at each checkout step; on success the repository
gains a worktree directory, the reference store unchanged. -/
def main_worktree (env : GixEnv) (pc : PrepareCheckout) (interrupted : Bool) :
    Except GixErr Repo :=
  if interrupted then .error .cancelled
  else
    match env.checkoutResult with
    | .error e => .error e
    | .ok _ => .ok { gitDir := pc.gitDir, worktreeDir := some pc.worktreePath, store := pc.store }

/-- The externally observable phases a clone call steps through. -/
inductive Phase
  | prepare
  | fetch
  | persist
  | checkout
deriving DecidableEq, Repr

/-- Lines 26-66 of `lib.rs`: `clone_from`.  Select the repository kind from
`bare`, prepare, fetch-then-checkout, then either persist (bare) or
materialize the main worktree; every component error is wrapped with the
failing phase's context.  `intFetch` and `intCheckout` are the values of the
process-wide interrupt flag at the fetch-phase and checkout-phase polls.  The
second component records which phases were invoked. -/
def clone_from (env : GixEnv) (intFetch intCheckout : Bool) (url toPath : String)
    (bare : Bool) : Except PyErr Repo × List Phase :=
  let kind := if bare then CreateKind.bare else CreateKind.withWorktree
  match prepareFetch env url toPath kind with
  | .error e =>
    (.error (.runtimeError ("Failed to prepare clone: " ++ gixMsg e)), [Phase.prepare])
  | .ok _ =>
    match fetch_then_checkout env intFetch with
    | .error e =>
      (.error (.runtimeError ("Failed to fetch repository: " ++ gixMsg e)),
        [Phase.prepare, Phase.fetch])
    | .ok prepareCheckout =>
      if bare then
        (.ok (persist prepareCheckout), [Phase.prepare, Phase.fetch, Phase.persist])
      else
        match main_worktree env prepareCheckout intCheckout with
        | .error e =>
          (.error (.runtimeError ("Failed to checkout worktree: " ++ gixMsg e)),
            [Phase.prepare, Phase.fetch, Phase.checkout])
        | .ok repo => (.ok repo, [Phase.prepare, Phase.fetch, Phase.checkout])

/-- Line 25 of `lib.rs`: the binding signature `(url, to_path, bare=false)`
supplies this default when the caller omits `bare`. -/
def bareDefault : Bool := false

/-- A clone call in which the caller omitted the `bare` argument: the binding
applies the declared default. -/
def clone_from_omitting_bare (env : GixEnv) (intFetch intCheckout : Bool)
    (url toPath : String) : Except PyErr Repo × List Phase :=
  clone_from env intFetch intCheckout url toPath bareDefault

/-- Sample reference store: branches `b`, `a`, `a` (byte values 98, 97, 97) in
store enumeration order. -/
def sampleStore : RefStore :=
  ⟨Except.ok (), Except.ok (),
    [Except.ok (refsHeads ++ [98]), Except.ok (refsHeads ++ [97]),
      Except.ok (refsHeads ++ [97])]⟩

/-- The same set of branches in a different enumeration order. -/
def sampleStorePerm : RefStore :=
  ⟨Except.ok (), Except.ok (),
    [Except.ok (refsHeads ++ [97]), Except.ok (refsHeads ++ [97]),
      Except.ok (refsHeads ++ [98])]⟩

/-- Sample reference store holding one branch whose shortened name (the single
byte `0xFF`) is not valid UTF-8. -/
def sampleStoreBad : RefStore :=
  ⟨Except.ok (), Except.ok (), [Except.ok (refsHeads ++ [255])]⟩

/-- Sample reference store in which the second branch reference fails to load. -/
def sampleStoreErr : RefStore :=
  ⟨Except.ok (), Except.ok (), [Except.ok (refsHeads ++ [98]), Except.error "boom"]⟩

/-- Sample reference store with no local branches. -/
def sampleStoreEmpty : RefStore := ⟨Except.ok (), Except.ok (), []⟩

/-- Sample fetched repository produced by a successful transfer. -/
def samplePC : PrepareCheckout := ⟨".git", "worktree", sampleStore⟩

/-- Sample oracle in which every phase succeeds. -/
def sampleEnvOk : GixEnv := ⟨Except.ok (), Except.ok samplePC, Except.ok ()⟩

/-- Sample oracle whose preparation phase fails with a transport error. -/
def sampleEnvPrepErr : GixEnv :=
  ⟨Except.error (GixErr.transport "bad url"), Except.error (GixErr.transport "bad url"),
    Except.ok ()⟩

/-- Sample oracle whose fetch phase fails with a protocol error. -/
def sampleEnvFetchErr : GixEnv :=
  ⟨Except.ok (), Except.error (GixErr.protocol "bad packet"), Except.ok ()⟩

/-- Sample oracle whose checkout phase fails with a filesystem error. -/
def sampleEnvCheckoutErr : GixEnv :=
  ⟨Except.ok (), Except.ok samplePC, Except.error (GixErr.checkout "disk full")⟩

/-! ### Helper lemmas about `collectResults` -/

theorem collectResults_map_ok {α : Type} (ns : List α) :
    collectResults (ns.map Except.ok) = Except.ok ns := by
  induction ns with
  | nil => rfl
  | cons a rest ih => simp [collectResults, ih]

theorem collectResults_ok_inv {α : Type} :
    ∀ (l : List (Except String α)) (ns : List α),
      collectResults l = Except.ok ns → l = ns.map Except.ok := by
  intro l
  induction l with
  | nil =>
    intro ns h
    simp only [collectResults, Except.ok.injEq] at h
    simp [← h]
  | cons x rest ih =>
    intro ns h
    cases x with
    | error e => simp [collectResults] at h
    | ok a =>
      cases hr : collectResults rest with
      | error e => simp [collectResults, hr] at h
      | ok as =>
        simp only [collectResults, hr, Except.ok.injEq] at h
        rw [← h]
        simp [ih as hr]

theorem collectResults_error_of_mem {α : Type} (e : String) :
    ∀ l : List (Except String α), Except.error e ∈ l →
      ∃ err, collectResults l = Except.error err := by
  intro l
  induction l with
  | nil => intro h; simp at h
  | cons x rest ih =>
    intro h
    cases x with
    | error e2 => exact ⟨e2, rfl⟩
    | ok a =>
      have hmem : Except.error e ∈ rest := by
        rcases List.mem_cons.mp h with h1 | h2
        · exact absurd h1 (by simp)
        · exact h2
      obtain ⟨err, herr⟩ := ih hmem
      exact ⟨err, by simp [collectResults, herr]⟩

/-! ### Helper lemmas about sort-then-dedup on byte strings -/

theorem mem_destutter'_ne :
    ∀ (l : List Bytes) (b x : Bytes), x ∈ b :: l → x ∈ List.destutter' (· ≠ ·) b l := by
  intro l
  induction l with
  | nil =>
    intro b x hx
    simpa [List.destutter'_nil] using hx
  | cons a l ih =>
    intro b x hx
    by_cases hba : b ≠ a
    · rw [List.destutter'_cons_pos _ hba]
      rcases List.mem_cons.mp hx with h1 | h2
      · exact List.mem_cons.mpr (Or.inl h1)
      · exact List.mem_cons.mpr (Or.inr (ih a x h2))
    · rw [List.destutter'_cons_neg _ hba]
      have hba' : b = a := not_ne_iff.mp hba
      apply ih b x
      rcases List.mem_cons.mp hx with h1 | h2
      · exact List.mem_cons.mpr (Or.inl h1)
      · rcases List.mem_cons.mp h2 with h3 | h4
        · exact List.mem_cons.mpr (Or.inl (h3.trans hba'.symm))
        · exact List.mem_cons.mpr (Or.inr h4)

theorem mem_destutter_ne (l : List Bytes) (x : Bytes) (hx : x ∈ l) :
    x ∈ l.destutter (· ≠ ·) := by
  cases l with
  | nil => simp at hx
  | cons a t =>
    rw [List.destutter_cons']
    exact mem_destutter'_ne t a x hx

theorem sorted_lt_of_sorted_le_chain'_ne :
    ∀ l : List Bytes, l.Sorted (· ≤ ·) → l.Chain' (· ≠ ·) → l.Sorted (· < ·) := by
  intro l
  induction l with
  | nil => intro _ _; exact List.sorted_nil
  | cons a t ih =>
    intro hle hne
    have hle' := List.sorted_cons.mp hle
    have ht : t.Sorted (· < ·) := ih hle'.2 hne.tail
    refine List.sorted_cons.mpr ⟨?_, ht⟩
    intro b hb
    cases t with
    | nil => simp at hb
    | cons c t' =>
      have hac : a ≠ c := (List.chain'_cons.mp hne).1
      have haltc : a < c := lt_of_le_of_ne (hle'.1 c (List.mem_cons_self c t')) hac
      rcases List.mem_cons.mp hb with h1 | h2
      · exact h1 ▸ haltc
      · exact haltc.trans (List.rel_of_sorted_cons ht b h2)

theorem sortDedup_sorted (l : List Bytes) :
    ((List.insertionSort (· ≤ ·) l).destutter (· ≠ ·)).Sorted (· < ·) :=
  sorted_lt_of_sorted_le_chain'_ne _
    (List.Pairwise.sublist (List.destutter_sublist _ _) (List.sorted_insertionSort _ l))
    (List.destutter_is_chain' _ _)

theorem mem_sortDedup (l : List Bytes) (x : Bytes) :
    x ∈ (List.insertionSort (· ≤ ·) l).destutter (· ≠ ·) ↔ x ∈ l := by
  constructor
  · intro hx
    exact (List.mem_insertionSort _).mp ((List.destutter_sublist _ _).subset hx)
  · intro hx
    exact mem_destutter_ne _ _ ((List.mem_insertionSort _).mpr hx)

theorem sortDedup_congr_perm (l1 l2 : List Bytes) (h : l1.Perm l2) :
    (List.insertionSort (· ≤ ·) l1).destutter (· ≠ ·)
      = (List.insertionSort (· ≤ ·) l2).destutter (· ≠ ·) := by
  have hp : (List.insertionSort (· ≤ ·) l1).Perm (List.insertionSort (· ≤ ·) l2) :=
    ((List.perm_insertionSort _ l1).trans h).trans (List.perm_insertionSort _ l2).symm
  rw [List.eq_of_perm_of_sorted hp (List.sorted_insertionSort _ l1)
    (List.sorted_insertionSort _ l2)]

/-! ### Helper lemmas about `branches` -/

theorem branches_ok_inv (st : RefStore) (l : List Bytes)
    (h : branches st = Except.ok l) :
    st.refsResult = Except.ok () ∧ st.iterResult = Except.ok () ∧
      ∃ ns : List Bytes, st.items = List.map Except.ok ns ∧
        l = (List.insertionSort (· ≤ ·) (List.map displayName ns)).destutter (· ≠ ·) := by
  cases hr : st.refsResult with
  | error e => simp [branches, hr] at h
  | ok u =>
    cases u
    cases hi : st.iterResult with
    | error e => simp [branches, hr, hi] at h
    | ok u =>
      cases u
      cases hc : collectResults st.items with
      | error e => simp [branches, hr, hi, hc] at h
      | ok ns =>
        simp only [branches, hr, hi, hc, Except.ok.injEq] at h
        exact ⟨rfl, rfl, ns, collectResults_ok_inv _ _ hc, h.symm⟩

theorem branches_of_items_ok (st : RefStore) (ns : List Bytes)
    (hr : st.refsResult = Except.ok ()) (hi : st.iterResult = Except.ok ())
    (hitems : st.items = ns.map Except.ok) :
    branches st
      = Except.ok ((List.insertionSort (· ≤ ·) (ns.map displayName)).destutter (· ≠ ·)) := by
  simp [branches, hr, hi, hitems, collectResults_map_ok]

/-! ### Claim theorems: branch listing -/

/-- C1: every successful `branches()` result is sorted strictly ascending in
the lexicographic byte order (hence free of duplicates), and a name appears in
it exactly when it is the display name of some enumerated local branch — so
any two local branches with equal shortened display names contribute exactly
one entry. -/
theorem branches_sorted_nodup (st : RefStore) (l : List Bytes)
    (h : branches st = Except.ok l) :
    l.Sorted (· < ·) ∧ l.Nodup ∧
      ∀ n, n ∈ l ↔ ∃ raw, Except.ok raw ∈ st.items ∧ displayName raw = n := by
  obtain ⟨hr, hi, ns, hitems, hl⟩ := branches_ok_inv st l h
  subst hl
  refine ⟨sortDedup_sorted _, List.Pairwise.imp (fun hab => ne_of_lt hab)
    (sortDedup_sorted _), ?_⟩
  intro n
  rw [mem_sortDedup]
  constructor
  · intro hn
    obtain ⟨raw, hraw, hdn⟩ := List.mem_map.mp hn
    exact ⟨raw, hitems ▸ List.mem_map_of_mem Except.ok hraw, hdn⟩
  · rintro ⟨raw, hraw, hdn⟩
    rw [hitems] at hraw
    obtain ⟨b, hb, hbe⟩ := List.mem_map.mp hraw
    cases Except.ok.inj hbe
    exact hdn ▸ List.mem_map_of_mem displayName hb

theorem branches_sorted_nodup_witness :
    List.Sorted (· < ·) [([97] : Bytes), [98]] ∧ ([([97] : Bytes), [98]]).Nodup ∧
      ∀ n, n ∈ [([97] : Bytes), [98]] ↔
        ∃ raw, Except.ok raw ∈ sampleStore.items ∧ displayName raw = n :=
  branches_sorted_nodup sampleStore [[97], [98]] (by decide)

/-- C3: a local branch whose raw shortened reference name is not valid UTF-8
does not fail the listing: `branches()` still succeeds, and that branch
contributes the lossy decoding of its shortened name. -/
theorem branches_lossy_fallback (st : RefStore) (ns : List Bytes) (raw : Bytes)
    (hr : st.refsResult = Except.ok ()) (hi : st.iterResult = Except.ok ())
    (hitems : st.items = List.map Except.ok ns) (hmem : raw ∈ ns)
    (hbad : isValidUtf8 (shorten raw) = false) :
    ∃ l, branches st = Except.ok l ∧
      displayName raw = utf8Lossy (shorten raw) ∧ displayName raw ∈ l := by
  refine ⟨_, branches_of_items_ok st ns hr hi hitems, ?_, ?_⟩
  · simp [displayName, hbad]
  · rw [mem_sortDedup]
    exact List.mem_map_of_mem displayName hmem

theorem branches_lossy_fallback_witness :
    ∃ l, branches sampleStoreBad = Except.ok l ∧
      displayName (refsHeads ++ [255]) = utf8Lossy (shorten (refsHeads ++ [255])) ∧
      displayName (refsHeads ++ [255]) ∈ l :=
  branches_lossy_fallback sampleStoreBad [refsHeads ++ [255]] (refsHeads ++ [255])
    rfl rfl rfl (by decide) (by decide)

/-- C4: when loading any local-branch reference fails, `branches()` aborts the
entire listing with a wrapped load error and never returns a (partial) list. -/
theorem branches_load_error_aborts (st : RefStore) (e : String)
    (hr : st.refsResult = Except.ok ()) (hi : st.iterResult = Except.ok ())
    (hmem : Except.error e ∈ st.items) :
    (∃ err, branches st
        = Except.error (PyErr.runtimeError ("Failed to load branch reference: " ++ err)))
      ∧ ∀ l, branches st ≠ Except.ok l := by
  obtain ⟨err, herr⟩ := collectResults_error_of_mem e st.items hmem
  have hb : branches st
      = Except.error (PyErr.runtimeError ("Failed to load branch reference: " ++ err)) := by
    simp [branches, hr, hi, herr]
  exact ⟨⟨err, hb⟩, fun l hl => by simp [hb] at hl⟩

theorem branches_load_error_aborts_witness :
    (∃ err, branches sampleStoreErr
        = Except.error (PyErr.runtimeError ("Failed to load branch reference: " ++ err)))
      ∧ ∀ l, branches sampleStoreErr ≠ Except.ok l :=
  branches_load_error_aborts sampleStoreErr "boom" rfl rfl (by decide)

/-- C7: `branches()` does not depend on the store's internal enumeration
order: two enumerations of the same set of local branches produce equal
results, and every successful result is sorted ascending with no two adjacent
equal elements. -/
theorem branches_deterministic (st1 st2 : RefStore) (ns1 ns2 : List Bytes)
    (h1r : st1.refsResult = Except.ok ()) (h1i : st1.iterResult = Except.ok ())
    (h2r : st2.refsResult = Except.ok ()) (h2i : st2.iterResult = Except.ok ())
    (h1 : st1.items = List.map Except.ok ns1) (h2 : st2.items = List.map Except.ok ns2)
    (hperm : ns1.Perm ns2) :
    branches st1 = branches st2 ∧
      ∀ l, branches st1 = Except.ok l → l.Sorted (· < ·) ∧ l.Chain' (· ≠ ·) := by
  have e1 := branches_of_items_ok st1 ns1 h1r h1i h1
  have e2 := branches_of_items_ok st2 ns2 h2r h2i h2
  constructor
  · rw [e1, e2, sortDedup_congr_perm _ _ (hperm.map displayName)]
  · intro l hl
    rw [e1] at hl
    cases Except.ok.inj hl
    exact ⟨sortDedup_sorted _, List.destutter_is_chain' _ _⟩

theorem branches_deterministic_witness :
    branches sampleStore = branches sampleStorePerm ∧
      ∀ l, branches sampleStore = Except.ok l → l.Sorted (· < ·) ∧ l.Chain' (· ≠ ·) :=
  branches_deterministic sampleStore sampleStorePerm
    [refsHeads ++ [98], refsHeads ++ [97], refsHeads ++ [97]]
    [refsHeads ++ [97], refsHeads ++ [97], refsHeads ++ [98]]
    rfl rfl rfl rfl rfl rfl (by decide)

/-- C8: a repository with no local branches lists successfully as the empty
sequence. -/
theorem branches_empty_of_no_branches (st : RefStore)
    (hr : st.refsResult = Except.ok ()) (hi : st.iterResult = Except.ok ())
    (hempty : st.items = []) : branches st = Except.ok [] := by
  simpa using branches_of_items_ok st [] hr hi (by simp [hempty])

theorem branches_empty_of_no_branches_witness :
    branches sampleStoreEmpty = Except.ok [] :=
  branches_empty_of_no_branches sampleStoreEmpty rfl rfl rfl

/-! ### Claim theorems: clone -/

/-- C2: cloning with `bare = true` never invokes the Checkout Engine; the
fetched repository is persisted directly, has no worktree directory, and its
`branches()` reads exactly the reference store discovered during the clone. -/
theorem clone_bare_skips_checkout (env : GixEnv) (intF intC : Bool)
    (url toPath : String) :
    Phase.checkout ∉ (clone_from env intF intC url toPath true).2 ∧
      ∀ pc, env.prepareResult = Except.ok () →
        fetch_then_checkout env intF = Except.ok pc →
          (clone_from env intF intC url toPath true).1 = Except.ok (persist pc) ∧
            (persist pc).worktreeDir = none ∧
            branches (persist pc).store = branches pc.store := by
  constructor
  · cases hp : env.prepareResult with
    | error e => simp [clone_from, prepareFetch, hp]
    | ok u =>
      cases u
      cases hf : fetch_then_checkout env intF with
      | error e => simp [clone_from, prepareFetch, hp, hf]
      | ok pc => simp [clone_from, prepareFetch, hp, hf]
  · intro pc hp hf
    refine ⟨?_, rfl, rfl⟩
    simp [clone_from, prepareFetch, hp, hf]

theorem clone_bare_skips_checkout_witness :
    Phase.checkout ∉ (clone_from sampleEnvOk false false "url" "path" true).2 ∧
      ((clone_from sampleEnvOk false false "url" "path" true).1
          = Except.ok (persist samplePC) ∧
        (persist samplePC).worktreeDir = none ∧
        branches (persist samplePC).store = branches samplePC.store) :=
  ⟨(clone_bare_skips_checkout sampleEnvOk false false "url" "path").1,
    (clone_bare_skips_checkout sampleEnvOk false false "url" "path").2 samplePC rfl rfl⟩

/-- C5: `clone_from` never masks or downgrades a component error — whichever
phase fails, the call returns an error wrapping the component's message with
context naming the failing phase, and no repository is produced. -/
theorem clone_from_wraps_phase_errors (env : GixEnv) (intF intC : Bool)
    (url toPath : String) (bare : Bool) :
    (∀ e, env.prepareResult = Except.error e →
        (clone_from env intF intC url toPath bare).1
          = Except.error (PyErr.runtimeError ("Failed to prepare clone: " ++ gixMsg e)))
      ∧ (∀ e, env.prepareResult = Except.ok () →
          fetch_then_checkout env intF = Except.error e →
            (clone_from env intF intC url toPath bare).1
              = Except.error
                  (PyErr.runtimeError ("Failed to fetch repository: " ++ gixMsg e)))
      ∧ ∀ e pc, env.prepareResult = Except.ok () →
          fetch_then_checkout env intF = Except.ok pc → bare = false →
            main_worktree env pc intC = Except.error e →
              (clone_from env intF intC url toPath bare).1
                = Except.error
                    (PyErr.runtimeError ("Failed to checkout worktree: " ++ gixMsg e)) := by
  refine ⟨?_, ?_, ?_⟩
  · intro e hp
    simp [clone_from, prepareFetch, hp]
  · intro e hp hf
    simp [clone_from, prepareFetch, hp, hf]
  · intro e pc hp hf hbare hw
    subst hbare
    simp [clone_from, prepareFetch, hp, hf, hw]

theorem clone_from_wraps_phase_errors_witness :
    (clone_from sampleEnvPrepErr false false "url" "path" false).1
        = Except.error (PyErr.runtimeError "Failed to prepare clone: bad url")
      ∧ (clone_from sampleEnvFetchErr false false "url" "path" false).1
        = Except.error (PyErr.runtimeError "Failed to fetch repository: bad packet")
      ∧ (clone_from sampleEnvCheckoutErr false false "url" "path" false).1
        = Except.error (PyErr.runtimeError "Failed to checkout worktree: disk full") :=
  ⟨(clone_from_wraps_phase_errors sampleEnvPrepErr false false "url" "path" false).1
      (GixErr.transport "bad url") rfl,
    (clone_from_wraps_phase_errors sampleEnvFetchErr false false "url" "path" false).2.1
      (GixErr.protocol "bad packet") rfl rfl,
    (clone_from_wraps_phase_errors sampleEnvCheckoutErr false false "url" "path" false).2.2
      (GixErr.checkout "disk full") samplePC rfl rfl rfl rfl⟩

/-- C6: the interrupt flag is polled during the fetch phase (negotiation and
transfer) and during checkout; when observed set, `clone_from` aborts with a
wrapped cancellation error and no repository handle is produced. -/
theorem clone_from_cancellation (env : GixEnv) (intC : Bool) (url toPath : String)
    (bare : Bool) (hp : env.prepareResult = Except.ok ()) :
    ((clone_from env true intC url toPath bare).1
        = Except.error (PyErr.runtimeError
            ("Failed to fetch repository: " ++ gixMsg GixErr.cancelled))
      ∧ ∀ r, (clone_from env true intC url toPath bare).1 ≠ Except.ok r)
    ∧ ∀ pc, bare = false → fetch_then_checkout env false = Except.ok pc →
        (clone_from env false true url toPath bare).1
            = Except.error (PyErr.runtimeError
                ("Failed to checkout worktree: " ++ gixMsg GixErr.cancelled))
          ∧ ∀ r, (clone_from env false true url toPath bare).1 ≠ Except.ok r := by
  constructor
  · have h1 : (clone_from env true intC url toPath bare).1
        = Except.error (PyErr.runtimeError
            ("Failed to fetch repository: " ++ gixMsg GixErr.cancelled)) := by
      simp [clone_from, prepareFetch, fetch_then_checkout, hp]
    exact ⟨h1, fun r hr => by simp [h1] at hr⟩
  · intro pc hbare hf
    subst hbare
    have h2 : (clone_from env false true url toPath false).1
        = Except.error (PyErr.runtimeError
            ("Failed to checkout worktree: " ++ gixMsg GixErr.cancelled)) := by
      simp [clone_from, prepareFetch, hp, hf, main_worktree]
    exact ⟨h2, fun r hr => by simp [h2] at hr⟩

theorem clone_from_cancellation_witness :
    ((clone_from sampleEnvOk true false "url" "path" false).1
        = Except.error (PyErr.runtimeError
            ("Failed to fetch repository: " ++ gixMsg GixErr.cancelled))
      ∧ ∀ r, (clone_from sampleEnvOk true false "url" "path" false).1 ≠ Except.ok r)
    ∧ ((clone_from sampleEnvOk false true "url" "path" false).1
        = Except.error (PyErr.runtimeError
            ("Failed to checkout worktree: " ++ gixMsg GixErr.cancelled))
      ∧ ∀ r, (clone_from sampleEnvOk false true "url" "path" false).1 ≠ Except.ok r) :=
  ⟨(clone_from_cancellation sampleEnvOk false "url" "path" false rfl).1,
    (clone_from_cancellation sampleEnvOk true "url" "path" false rfl).2 samplePC rfl rfl⟩

/-- C9: every error surfaced by `clone_from` or `branches` is the single
host-level runtime-error kind carrying only a formatted message string, so
distinct component failure kinds are distinguishable only by message text. -/
theorem errors_single_host_type :
    (∀ (env : GixEnv) (intF intC : Bool) (url toPath : String) (bare : Bool) (e : PyErr),
        (clone_from env intF intC url toPath bare).1 = Except.error e →
          ∃ m, e = PyErr.runtimeError m)
      ∧ ∀ (st : RefStore) (e : PyErr), branches st = Except.error e →
          ∃ m, e = PyErr.runtimeError m := by
  constructor
  · intro env intF intC url toPath bare e h
    cases hp : env.prepareResult with
    | error e2 =>
      simp [clone_from, prepareFetch, hp] at h
      exact ⟨_, h.symm⟩
    | ok u =>
      cases u
      cases hf : fetch_then_checkout env intF with
      | error e2 =>
        simp [clone_from, prepareFetch, hp, hf] at h
        exact ⟨_, h.symm⟩
      | ok pc =>
        cases bare with
        | true => simp [clone_from, prepareFetch, hp, hf] at h
        | false =>
          cases hw : main_worktree env pc intC with
          | error e2 =>
            simp [clone_from, prepareFetch, hp, hf, hw] at h
            exact ⟨_, h.symm⟩
          | ok r => simp [clone_from, prepareFetch, hp, hf, hw] at h
  · intro st e h
    cases hr : st.refsResult with
    | error e2 =>
      simp [branches, hr] at h
      exact ⟨_, h.symm⟩
    | ok u =>
      cases u
      cases hi : st.iterResult with
      | error e2 =>
        simp [branches, hr, hi] at h
        exact ⟨_, h.symm⟩
      | ok u =>
        cases u
        cases hc : collectResults st.items with
        | error e2 =>
          simp [branches, hr, hi, hc] at h
          exact ⟨_, h.symm⟩
        | ok ns => simp [branches, hr, hi, hc] at h

theorem errors_single_host_type_witness :
    (∃ m, PyErr.runtimeError "Failed to prepare clone: bad url" = PyErr.runtimeError m)
      ∧ ∃ m, PyErr.runtimeError "Failed to load branch reference: boom"
          = PyErr.runtimeError m :=
  ⟨errors_single_host_type.1 sampleEnvPrepErr false false "url" "path" false
      (PyErr.runtimeError "Failed to prepare clone: bad url") (by decide),
    errors_single_host_type.2 sampleStoreErr
      (PyErr.runtimeError "Failed to load branch reference: boom") (by decide)⟩

/-- C10: when the caller omits `bare`, the binding's declared default `false`
applies: the call equals `clone_from .. false`, the bare persist path is never
taken, the checkout phase is invoked whenever fetch succeeds, and any produced
repository has a worktree directory. -/
theorem clone_from_default_worktree (env : GixEnv) (intF intC : Bool)
    (url toPath : String) :
    clone_from_omitting_bare env intF intC url toPath
        = clone_from env intF intC url toPath false
      ∧ Phase.persist ∉ (clone_from_omitting_bare env intF intC url toPath).2
      ∧ (∀ pc, env.prepareResult = Except.ok () →
          fetch_then_checkout env intF = Except.ok pc →
            Phase.checkout ∈ (clone_from_omitting_bare env intF intC url toPath).2)
      ∧ ∀ r, (clone_from_omitting_bare env intF intC url toPath).1 = Except.ok r →
          ∃ w, r.worktreeDir = some w := by
  refine ⟨rfl, ?_, ?_, ?_⟩
  · cases hp : env.prepareResult with
    | error e =>
      simp [clone_from_omitting_bare, bareDefault, clone_from, prepareFetch, hp]
    | ok u =>
      cases u
      cases hf : fetch_then_checkout env intF with
      | error e =>
        simp [clone_from_omitting_bare, bareDefault, clone_from, prepareFetch, hp, hf]
      | ok pc =>
        cases hw : main_worktree env pc intC with
        | error e =>
          simp [clone_from_omitting_bare, bareDefault, clone_from, prepareFetch, hp, hf, hw]
        | ok r =>
          simp [clone_from_omitting_bare, bareDefault, clone_from, prepareFetch, hp, hf, hw]
  · intro pc hp hf
    cases hw : main_worktree env pc intC with
    | error e =>
      simp [clone_from_omitting_bare, bareDefault, clone_from, prepareFetch, hp, hf, hw]
    | ok r =>
      simp [clone_from_omitting_bare, bareDefault, clone_from, prepareFetch, hp, hf, hw]
  · intro r hr
    cases hp : env.prepareResult with
    | error e =>
      simp [clone_from_omitting_bare, bareDefault, clone_from, prepareFetch, hp] at hr
    | ok u =>
      cases u
      cases hf : fetch_then_checkout env intF with
      | error e =>
        simp [clone_from_omitting_bare, bareDefault, clone_from, prepareFetch, hp, hf] at hr
      | ok pc =>
        cases intC with
        | true =>
          simp [clone_from_omitting_bare, bareDefault, clone_from, prepareFetch, hp, hf,
            main_worktree] at hr
        | false =>
          cases hc : env.checkoutResult with
          | error e =>
            simp [clone_from_omitting_bare, bareDefault, clone_from, prepareFetch, hp, hf,
              main_worktree, hc] at hr
          | ok u =>
            cases u
            simp [clone_from_omitting_bare, bareDefault, clone_from, prepareFetch, hp, hf,
              main_worktree, hc] at hr
            exact ⟨pc.worktreePath, by rw [← hr]⟩

theorem clone_from_default_worktree_witness :
    clone_from_omitting_bare sampleEnvOk false false "url" "path"
        = clone_from sampleEnvOk false false "url" "path" false
      ∧ Phase.persist ∉ (clone_from_omitting_bare sampleEnvOk false false "url" "path").2
      ∧ Phase.checkout ∈ (clone_from_omitting_bare sampleEnvOk false false "url" "path").2
      ∧ ∃ w, (Repo.mk ".git" (some "worktree") sampleStore).worktreeDir = some w :=
  ⟨(clone_from_default_worktree sampleEnvOk false false "url" "path").1,
    (clone_from_default_worktree sampleEnvOk false false "url" "path").2.1,
    (clone_from_default_worktree sampleEnvOk false false "url" "path").2.2.1 samplePC rfl rfl,
    (clone_from_default_worktree sampleEnvOk false false "url" "path").2.2.2
      (Repo.mk ".git" (some "worktree") sampleStore) (by decide)⟩

end Gitpure
